import Mathlib

/-
Verification of the task-state engine and audio feedback subsystem of the
REACT-TODO-APP repository (src/TodoApp.jsx, src/SoundEngine.js).

The task list, its mutation handlers (addTodo, toggleTodo, deleteTodo,
onReorder), the derived statistics, and the localStorage persistence
round-trip (JSON.stringify / JSON.parse on the task array) are embedded
as pure Lean functions.  The float64 arithmetic of the statistics
derivation is modelled exactly (correctly rounded binary64 division and
multiplication over the naturals); string trimming is modelled over the
character list of the input.
-/

namespace TodoApp

/-- Priority of a task: the UI cycles through exactly the three levels
Low, Medium, High (TodoApp.jsx, priority toggle button). -/
inductive Priority where
  | Low
  | Medium
  | High
deriving DecidableEq, Repr

/-- A task object as created by addTodo in TodoApp.jsx:
`{ id: Date.now(), text: inputValue, completed: false, priority: priority }`. -/
structure Task where
  id : Nat
  text : String
  completed : Bool
  priority : Priority
deriving DecidableEq, Repr

/-- Whitespace test used by JavaScript String.prototype.trim
(the characters relevant to this application's ASCII inputs). -/
def isWsChar (c : Char) : Bool :=
  c = ' ' || c = '\t' || c = '\n' || c = '\x0d' || c = '\x0c' || c = '\x0b'

/-- Model of JavaScript String.prototype.trim: strip whitespace from
both ends of the character list. -/
def jsTrim (s : String) : String :=
  String.mk (((s.data.dropWhile isWsChar).reverse.dropWhile isWsChar).reverse)

/-- Embedding of addTodo (TodoApp.jsx lines 241-252): if the trimmed
input is empty, return unchanged; otherwise prepend a task whose text is
the raw (untrimmed) input, with completed = false, the given priority and
`Date.now()` (the `now` argument) as id. -/
def addTodo (inputValue : String) (priority : Priority) (now : Nat)
    (todos : List Task) : List Task :=
  if jsTrim inputValue = "" then todos
  else { id := now, text := inputValue, completed := false,
         priority := priority } :: todos

/-- The list transformation inside toggleTodo (TodoApp.jsx lines 263-267):
map over the list flipping `completed` on the task whose id matches. -/
def toggleList (id : Nat) (todos : List Task) : List Task :=
  todos.map fun todo =>
    if todo.id = id then { todo with completed := !todo.completed } else todo

/-- Sound-trigger events the TodoApp handlers can emit (which SoundEngine
method they invoke). -/
inductive SoundEvt where
  | addSound
  | toggleSound (completed : Bool)
  | deleteSound
deriving DecidableEq, Repr

/-- Embedding of the toggleTodo handler (TodoApp.jsx lines 258-268):
find the task; if present play playToggle(!completed); then map the flip
over the list.  Returns the new list and the emitted sound triggers. -/
def toggleTodo (todos : List Task) (id : Nat) : List Task × List SoundEvt :=
  (toggleList id todos,
   match todos.find? (fun t => t.id == id) with
   | some t => [SoundEvt.toggleSound (!t.completed)]
   | none => [])

/-- Embedding of the deleteTodo handler (TodoApp.jsx lines 274-277):
play playDelete unconditionally, then filter the task out. -/
def deleteTodo (todos : List Task) (id : Nat) : List Task × List SoundEvt :=
  (todos.filter fun todo => todo.id != id, [SoundEvt.deleteSound])

/-- Embedding of the Reorder.Group onReorder handler
(TodoApp.jsx lines 584-590): `onReorder={setTodos}` replaces the list
wholesale with the new ordering, with no validation. -/
def reorderTodos (_todos newOrder : List Task) : List Task :=
  newOrder

/-- Derived state (TodoApp.jsx line 286): `const totalTasks = todos.length`. -/
def totalTasks (todos : List Task) : Nat :=
  todos.length

/-- Derived state (TodoApp.jsx line 287):
`todos.filter((todo) => todo.completed).length`. -/
def completedTasks (todos : List Task) : Nat :=
  (todos.filter fun todo => todo.completed).length

/-- Round a/b (b positive) to the nearest integer, ties to even — the
IEEE 754 default rounding of an exact quotient onto an integral
significand grid. -/
def rnEven (a b : ℕ) : ℕ :=
  if 2 * (a % b) < b then a / b
  else if b < 2 * (a % b) then a / b + 1
  else if (a / b) % 2 = 0 then a / b else a / b + 1

/-- Fuelled floor of the base-2 logarithm (the fuel only bounds the
recursion; n itself is always enough fuel). -/
def log2fuel : ℕ → ℕ → ℕ
  | 0, _ => 0
  | f + 1, n => if n ≤ 1 then 0 else log2fuel f (n / 2) + 1

/-- Floor of the base-2 logarithm of a positive natural. -/
def nlog2 (n : ℕ) : ℕ := log2fuel n n

/-- Fuelled search for the smallest p with t ≤ c * 2^p. -/
def pExpFuel : ℕ → ℕ → ℕ → ℕ
  | 0, _, _ => 0
  | f + 1, c, t => if t ≤ c then 0 else pExpFuel f (2 * c) t + 1

/-- Smallest p with t ≤ c * 2^p (for positive c ≤ t): the normalisation
shift with 2^(-p) ≤ c/t < 2^(-p+1). -/
def pExp (c t : ℕ) : ℕ := pExpFuel t c t

/-- Math.round((c/t)*100) computed in IEEE 754 binary64 for 0 ≤ c ≤ t
(a completed count never exceeds the total, and JavaScript array lengths
stay far inside the normal floating-point range, so neither underflow
nor overflow can occur).  The quotient c/t is correctly rounded to a
53-bit significand: c/t = m1 * 2^(-(52+p)) with 2^52 ≤ m1 (round to
nearest, ties to even, on the exact quotient c*2^(52+p)/t); the product
with the exactly representable 100 is correctly rounded likewise to a
53-bit significand m2 = rnEven (m1*100) 2^shift at exponent
shift-(52+p); finally Math.round maps the mathematical value of that
float to the nearest integer, half toward positive infinity
(floor(x + 1/2), computed exactly on the dyadic value). -/
def percent64 (c t : ℕ) : ℕ :=
  if c = 0 then 0
  else
    let p := pExp c t
    let m1 := rnEven (c * 2 ^ (52 + p)) t
    let z := m1 * 100
    let shift := nlog2 z - 52
    let m2 := rnEven z (2 ^ shift)
    if 52 + p ≤ shift then m2 * 2 ^ (shift - (52 + p))
    else (2 * m2 + 2 ^ (52 + p - shift)) / 2 ^ (52 + p - shift + 1)

/-- Derived state (TodoApp.jsx line 288):
`totalTasks === 0 ? 0 : Math.round((completedTasks / totalTasks) * 100)`,
with the float64 division and multiplication modelled exactly by
percent64: at completed=113, total=200 the float pipeline yields
56.49999999999999 and Math.round gives 56, where exact rational
arithmetic would give round(56.5) = 57. -/
def progressPercentage (todos : List Task) : ℕ :=
  if totalTasks todos = 0 then 0
  else percent64 (completedTasks todos) (totalTasks todos)

/-- The derived statistics bundle {total, completed, percentage}. -/
def statsTriple (todos : List Task) : Nat × Nat × Nat :=
  (totalTasks todos, completedTasks todos, progressPercentage todos)

/-
SoundEngine.js embedding.  The engine state is whether the AudioContext
has been created and the enabled flag; every method returns, in Except,
the new state together with the list of audio-backend calls it makes
(context construction, oscillator node construction, gain node
construction, start scheduling).  The `ctxOk` parameter models whether
`new AudioContext()` succeeds; when it throws, the exception propagates
(there is no try/catch anywhere in SoundEngine.js), modelled by
Except.error.
-/

/-- Engine state: SoundEngine.js constructor sets audioCtx = null and
enabled = true. -/
structure EngineState where
  audioCtx : Bool
  enabled : Bool
deriving DecidableEq, Repr

/-- One call into the audio backend. -/
inductive AudioCall where
  | ctxCreate
  | oscCreate
  | gainCreate
  | oscStart
deriving DecidableEq, Repr

/-- init (SoundEngine.js lines 50-54): lazily construct the AudioContext;
a constructor failure propagates. -/
def engineInit (ctxOk : Bool) (s : EngineState) :
    Except Unit (EngineState × List AudioCall) :=
  if s.audioCtx then Except.ok (s, [])
  else if ctxOk then Except.ok ({ s with audioCtx := true }, [AudioCall.ctxCreate])
  else Except.error ()

/-- setEnabled (SoundEngine.js lines 60-62). -/
def setEnabled (v : Bool) (s : EngineState) : EngineState :=
  { s with enabled := v }

/-- createOscillator (SoundEngine.js lines 73-93): guard clause exits if
the context is missing or the engine is disabled; otherwise it builds an
oscillator and a gain node and schedules start/stop. -/
def createOscillator (s : EngineState) : List AudioCall :=
  if !s.audioCtx || !s.enabled then []
  else [AudioCall.oscCreate, AudioCall.gainCreate, AudioCall.oscStart]

/-- playClick (SoundEngine.js lines 99-102): init then one oscillator. -/
def playClick (ctxOk : Bool) (s : EngineState) :
    Except Unit (EngineState × List AudioCall) :=
  match engineInit ctxOk s with
  | Except.error e => Except.error e
  | Except.ok (s1, c) => Except.ok (s1, c ++ createOscillator s1)

/-- playAdd (SoundEngine.js lines 108-113): init then two oscillators
(the second deferred by setTimeout). -/
def playAdd (ctxOk : Bool) (s : EngineState) :
    Except Unit (EngineState × List AudioCall) :=
  match engineInit ctxOk s with
  | Except.error e => Except.error e
  | Except.ok (s1, c) =>
      Except.ok (s1, c ++ createOscillator s1 ++ createOscillator s1)

/-- playToggle (SoundEngine.js lines 119-129). -/
def playToggle (completed : Bool) (ctxOk : Bool) (s : EngineState) :
    Except Unit (EngineState × List AudioCall) :=
  match engineInit ctxOk s with
  | Except.error e => Except.error e
  | Except.ok (s1, c) =>
      if completed then
        Except.ok (s1, c ++ createOscillator s1 ++ createOscillator s1)
      else Except.ok (s1, c ++ createOscillator s1)

/-- playDelete (SoundEngine.js lines 135-138). -/
def playDelete (ctxOk : Bool) (s : EngineState) :
    Except Unit (EngineState × List AudioCall) :=
  match engineInit ctxOk s with
  | Except.error e => Except.error e
  | Except.ok (s1, c) => Except.ok (s1, c ++ createOscillator s1)

/-- playVictory (SoundEngine.js lines 144-174): init, then five voices,
each constructing an oscillator and a gain node and scheduling start/stop
directly on the context, WITHOUT consulting this.enabled (unlike
createOscillator, the inline voice code has no enabled guard). -/
def playVictory (ctxOk : Bool) (s : EngineState) :
    Except Unit (EngineState × List AudioCall) :=
  match engineInit ctxOk s with
  | Except.error e => Except.error e
  | Except.ok (s1, c) =>
      if !s1.audioCtx then Except.ok (s1, c)
      else
        Except.ok (s1, c ++ (List.replicate 5
          [AudioCall.oscCreate, AudioCall.gainCreate, AudioCall.oscStart]).flatten)

/-- playCredits (SoundEngine.js lines 179-185). -/
def playCredits (ctxOk : Bool) (s : EngineState) :
    Except Unit (EngineState × List AudioCall) :=
  match engineInit ctxOk s with
  | Except.error e => Except.error e
  | Except.ok (s1, c) =>
      if !s1.audioCtx then Except.ok (s1, c)
      else Except.ok (s1, c ++ createOscillator s1 ++ createOscillator s1)

/-
Operation sequences over the store, for the id-uniqueness invariant.
An add records the Date.now() value observed at that call.
-/

/-- A user-level mutation of the store: add carries the input text,
priority and the Date.now() timestamp of the call; reorder carries the
replacement ordering handed over by the drag-and-drop layer. -/
inductive Op where
  | add (text : String) (p : Priority) (now : Nat)
  | toggle (id : Nat)
  | del (id : Nat)
  | reorder (newOrder : List Task)
deriving Repr

/-- Apply one operation to the current list, exactly as the TodoApp
handlers do. -/
def applyOp (todos : List Task) : Op → List Task
  | Op.add text p now => addTodo text p now todos
  | Op.toggle id => (toggleTodo todos id).1
  | Op.del id => (deleteTodo todos id).1
  | Op.reorder newOrder => reorderTodos todos newOrder

/-- Run a sequence of operations from a starting list. -/
def runOps (todos : List Task) (ops : List Op) : List Task :=
  ops.foldl applyOp todos

/-- The discipline under which id uniqueness survives: each add occurs
at a clock value that is not already an id in the list (true whenever
Date.now() is strictly increasing across adds), and each reorder is
handed a permutation of the current list (what the drag-and-drop layer
guarantees). -/
def validOps : List Task → List Op → Bool
  | _, [] => true
  | todos, op :: ops =>
      (match op with
       | Op.add _ _ now => !((todos.map Task.id).contains now)
       | Op.toggle _ => true
       | Op.del _ => true
       | Op.reorder newOrder => newOrder.isPerm todos) &&
      validOps (applyOp todos op) ops

/-
Persistence embedding: JSON.stringify of the todos array (useEffect,
TodoApp.jsx lines 155-158) and the JSON.parse load path (useState
initializer, lines 132-136).  JSON.stringify on an array of task
objects emits, with no whitespace, the object keys in insertion order
id, text, completed, priority; strings are escaped exactly as
JSON.stringify does (quote, backslash, the named control escapes, and
the \u00XX form for the remaining control characters).
-/

/-- Decimal digit character (used for values below 10). -/
def digitChar : Nat → Char
  | 0 => '0' | 1 => '1' | 2 => '2' | 3 => '3' | 4 => '4'
  | 5 => '5' | 6 => '6' | 7 => '7' | 8 => '8' | _ => '9'

/-- Lowercase hexadecimal digit character (used for values below 16). -/
def hexDigitChar : Nat → Char
  | 0 => '0' | 1 => '1' | 2 => '2' | 3 => '3' | 4 => '4' | 5 => '5'
  | 6 => '6' | 7 => '7' | 8 => '8' | 9 => '9' | 10 => 'a' | 11 => 'b'
  | 12 => 'c' | 13 => 'd' | 14 => 'e' | _ => 'f'

/-- JSON.stringify escaping of one string character. -/
def escapeChar (c : Char) : List Char :=
  if c = '"' then ['\\', '"']
  else if c = '\\' then ['\\', '\\']
  else if c = '\x08' then ['\\', 'b']
  else if c = '\t' then ['\\', 't']
  else if c = '\n' then ['\\', 'n']
  else if c = '\x0c' then ['\\', 'f']
  else if c = '\x0d' then ['\\', 'r']
  else if c.toNat < 32 then
    ['\\', 'u', '0', '0', hexDigitChar (c.toNat / 16), hexDigitChar (c.toNat % 16)]
  else [c]

/-- JSON.stringify escaping of a character list. -/
def escapeChars : List Char → List Char
  | [] => []
  | c :: cs => escapeChar c ++ escapeChars cs

/-- Decimal rendering of a natural number (how JSON.stringify prints the
integer-valued id). -/
def toDecimal (n : Nat) : List Char :=
  if _h : n < 10 then [digitChar n]
  else toDecimal (n / 10) ++ [digitChar (n % 10)]
termination_by n
decreasing_by exact Nat.div_lt_self (by omega) (by omega)

/-- JSON rendering of a boolean. -/
def boolChars (b : Bool) : List Char :=
  if b then "true".data else "false".data

/-- JSON rendering of a priority value (the string stored in the task). -/
def priorityChars : Priority → List Char
  | Priority.Low => "Low".data
  | Priority.Medium => "Medium".data
  | Priority.High => "High".data

/-- Literal from the object opening brace through the id key. -/
def idLit : List Char := "\x7b\"id\":".data

/-- Literal between the id value and the text string contents. -/
def textLit : List Char := ",\"text\":\"".data

/-- Literal between the text string and the completed value (the text
closing quote itself is consumed by the string parser). -/
def compLit : List Char := ",\"completed\":".data

/-- Literal between the completed value and the priority string. -/
def priLit : List Char := ",\"priority\":\"".data

/-- Closing literal of a task object. -/
def closeLit : List Char := "\"\x7d".data

/-- JSON.stringify rendering of one task object. -/
def renderTask (t : Task) : List Char :=
  idLit ++ toDecimal t.id ++ textLit ++ escapeChars t.text.data ++
    '"' :: compLit ++ boolChars t.completed ++ priLit ++
    priorityChars t.priority ++ closeLit

/-- Rendering of the remaining tasks of the array: each preceded by a
comma, then the closing bracket. -/
def renderItems : List Task → List Char
  | [] => [']']
  | t :: ts => ',' :: (renderTask t ++ renderItems ts)

/-- JSON.stringify of the todos array, as the character list of the
string written to localStorage. -/
def serializeChars : List Task → List Char
  | [] => "[]".data
  | t :: ts => '[' :: (renderTask t ++ renderItems ts)

/-- The string written to localStorage by the persistence effect. -/
def serialize (todos : List Task) : String :=
  String.mk (serializeChars todos)

/-- Drop an expected literal prefix. -/
def dropLit : List Char → List Char → Option (List Char)
  | [], cs => some cs
  | _ :: _, [] => none
  | l :: ls, c :: cs => if c = l then dropLit ls cs else none

/-- Numeric value of a digit run (most significant first), folded onto
an accumulator. -/
def digitsVal : List Char → Nat → Nat
  | [], acc => acc
  | c :: cs, acc => digitsVal cs (acc * 10 + (c.toNat - 48))

/-- Parse a nonempty run of decimal digits. -/
def parseNat (cs : List Char) : Option (Nat × List Char) :=
  let ds := cs.takeWhile Char.isDigit
  if ds.isEmpty then none
  else some (digitsVal ds 0, cs.dropWhile Char.isDigit)

/-- Hexadecimal digit test (for the digits JSON.stringify emits). -/
def isHexDigitCh (c : Char) : Bool :=
  c.isDigit || (97 ≤ c.toNat && c.toNat ≤ 102)

/-- Value of a hexadecimal digit. -/
def hexVal (c : Char) : Nat :=
  if c.isDigit then c.toNat - 48 else c.toNat - 87

/-- Parse a JSON string body up to and including the closing quote,
undoing JSON.stringify escapes. -/
def parseJString : List Char → Option (List Char × List Char)
  | [] => none
  | c :: rest =>
    if c = '"' then some ([], rest)
    else if c = '\\' then
      match rest with
      | [] => none
      | e :: rest2 =>
        if e = '"' then (parseJString rest2).map fun p => ('"' :: p.1, p.2)
        else if e = '\\' then (parseJString rest2).map fun p => ('\\' :: p.1, p.2)
        else if e = 'b' then (parseJString rest2).map fun p => ('\x08' :: p.1, p.2)
        else if e = 't' then (parseJString rest2).map fun p => ('\t' :: p.1, p.2)
        else if e = 'n' then (parseJString rest2).map fun p => ('\n' :: p.1, p.2)
        else if e = 'f' then (parseJString rest2).map fun p => ('\x0c' :: p.1, p.2)
        else if e = 'r' then (parseJString rest2).map fun p => ('\x0d' :: p.1, p.2)
        else if e = 'u' then
          match rest2 with
          | h3 :: h2 :: h1 :: h0 :: rest3 =>
            if isHexDigitCh h3 && isHexDigitCh h2 && isHexDigitCh h1 &&
                isHexDigitCh h0 then
              (parseJString rest3).map fun p =>
                (Char.ofNat (((hexVal h3 * 16 + hexVal h2) * 16 + hexVal h1) * 16 +
                  hexVal h0) :: p.1, p.2)
            else none
          | _ => none
        else none
    else (parseJString rest).map fun p => (c :: p.1, p.2)

/-- Parse a JSON boolean. -/
def parseBool (cs : List Char) : Option (Bool × List Char) :=
  match dropLit "true".data cs with
  | some r => some (true, r)
  | none =>
    match dropLit "false".data cs with
    | some r => some (false, r)
    | none => none

/-- Parse a priority name. -/
def parsePriorityChars (cs : List Char) : Option (Priority × List Char) :=
  match dropLit "Low".data cs with
  | some r => some (Priority.Low, r)
  | none =>
    match dropLit "Medium".data cs with
    | some r => some (Priority.Medium, r)
    | none =>
      match dropLit "High".data cs with
      | some r => some (Priority.High, r)
      | none => none

/-- Parse one task object of the persisted array. -/
def parseTask (cs : List Char) : Option (Task × List Char) :=
  match dropLit idLit cs with
  | none => none
  | some cs1 =>
    match parseNat cs1 with
    | none => none
    | some (n, cs2) =>
      match dropLit textLit cs2 with
      | none => none
      | some cs3 =>
        match parseJString cs3 with
        | none => none
        | some (s, cs4) =>
          match dropLit compLit cs4 with
          | none => none
          | some cs5 =>
            match parseBool cs5 with
            | none => none
            | some (b, cs6) =>
              match dropLit priLit cs6 with
              | none => none
              | some cs7 =>
                match parsePriorityChars cs7 with
                | none => none
                | some (p, cs8) =>
                  match dropLit closeLit cs8 with
                  | none => none
                  | some cs9 =>
                    some ({ id := n, text := String.mk s, completed := b,
                            priority := p }, cs9)

/-- Parse the tail of the array: the closing bracket, or a comma
followed by another task.  The fuel bounds the number of items. -/
def parseItems : Nat → List Char → Option (List Task × List Char)
  | 0, _ => none
  | _ + 1, ']' :: rest => some ([], rest)
  | fuel + 1, ',' :: rest =>
    (match parseTask rest with
     | none => none
     | some (t, rest2) =>
       match parseItems fuel rest2 with
       | none => none
       | some (ts, rest3) => some (t :: ts, rest3))
  | _ + 1, _ => none

/-- JSON.parse of a persisted string (character level), specialised to
what this application encounters: it accepts exactly the
array-of-task-objects format the app itself writes and maps every other
string to none.  For strings that are not valid JSON this matches
JSON.parse throwing; valid JSON of a different shape (which JSON.parse
would accept and the initializer would install unvalidated) is also
mapped to none — no theorem below relies on the model's behaviour
there. -/
def deserializeChars (cs : List Char) : Option (List Task) :=
  match dropLit ['['] cs with
  | none => none
  | some rest =>
    if rest = [']'] then some []
    else
      match parseTask rest with
      | none => none
      | some (t, rest2) =>
        match parseItems (rest2.length + 1) rest2 with
        | none => none
        | some (ts, rest3) => if rest3 = [] then some (t :: ts) else none

/-- JSON.parse of a persisted string. -/
def deserialize (s : String) : Option (List Task) :=
  deserializeChars s.data

/-- The useState initializer (TodoApp.jsx lines 132-136):
`savedTodos ? JSON.parse(savedTodos) : []`.  An absent key (and, by
JavaScript truthiness, the empty string) yields the empty list; any
other string goes through JSON.parse, whose failure on corrupt data
propagates (modelled as none). -/
def loadTodos (savedTodos : Option String) : Option (List Task) :=
  match savedTodos with
  | none => some []
  | some s => if s = "" then some [] else deserialize s

/-- Helper: toggling does not change any task's id. -/
theorem toggleList_map_id (id : Nat) (todos : List Task) :
    (toggleList id todos).map Task.id = todos.map Task.id := by
  unfold toggleList
  rw [List.map_map]
  refine List.map_congr_left fun t _ => ?_
  by_cases h : t.id = id <;> simp [h]

/-- Claim C1 (counterexample): the claim says the created task's text is
the trimmed input, but addTodo stores the raw untrimmed input: on input
" hi" the single created task has text " hi", not the trimmed "hi". -/
theorem addTodo_text_untrimmed_cex :
    (addTodo " hi" Priority.Medium 0 []).map Task.text ≠ [jsTrim " hi"] := by
  decide

/-- Claim C1 (amended): if the trimmed input is empty, addTodo is a no-op;
otherwise it prepends exactly one new task whose text is the raw input
(whose trim is non-empty), with completed = false and the given priority. -/
theorem addTodo_spec (input : String) (p : Priority) (now : Nat)
    (todos : List Task) :
    (jsTrim input = "" → addTodo input p now todos = todos) ∧
    (jsTrim input ≠ "" →
      addTodo input p now todos =
        { id := now, text := input, completed := false,
          priority := p } :: todos) := by
  constructor <;> intro h <;> simp [addTodo, h]

/-- Witness for addTodo_spec at concrete inputs: a whitespace-only input
is dropped, a real input is prepended unmodified. -/
theorem addTodo_spec_witness :
    (jsTrim "  " = "" ∧ addTodo "  " Priority.High 9 [] = []) ∧
    (jsTrim " hi " ≠ "" ∧
      addTodo " hi " Priority.Low 7 [] =
        [{ id := 7, text := " hi ", completed := false,
           priority := Priority.Low }]) :=
  ⟨⟨by decide, (addTodo_spec "  " Priority.High 9 []).1 (by decide)⟩,
   ⟨by decide, (addTodo_spec " hi " Priority.Low 7 []).2 (by decide)⟩⟩

set_option maxRecDepth 8000 in
/-- Claim C4 (counterexample): the claim's exact formula
round(completed/total*100) disagrees with the program's float64
computation: on a 200-task list with 113 completed the program (and the
model) yields Math.round(56.49999999999999) = 56, while the exact
formula yields round(56.5) = 57. -/
theorem stats_exact_round_cex :
    completedTasks (List.replicate 113 ⟨1, "a", true, Priority.Low⟩ ++
      List.replicate 87 ⟨2, "b", false, Priority.Low⟩) = 113 ∧
    totalTasks (List.replicate 113 ⟨1, "a", true, Priority.Low⟩ ++
      List.replicate 87 ⟨2, "b", false, Priority.Low⟩) = 200 ∧
    progressPercentage (List.replicate 113 ⟨1, "a", true, Priority.Low⟩ ++
      List.replicate 87 ⟨2, "b", false, Priority.Low⟩) = 56 ∧
    round ((113 : ℚ) / 200 * 100) = 57 := by
  refine ⟨by decide, by decide, by decide, ?_⟩
  have h1 : ((113 : ℚ) / 200 * 100) + 1 / 2 = ((57 : ℤ) : ℚ) := by norm_num
  rw [round_eq, h1, Int.floor_intCast]

/-- Claim C4 (amended): total is the list length and completed counts
the tasks with completed = true; percentage is 0 on the empty list and
otherwise Math.round of the float64 evaluation of (completed/total)*100
— the division and the multiplication each correctly rounded to binary64
— which can differ from the exact round(completed/total*100) (at 200
tasks with 113 completed the program yields 56, the exact formula 57);
an empty list still yields (0,0,0) and a list of 4 tasks with 1
completed yields (4,1,25). -/
theorem stats_spec (l : List Task) :
    totalTasks l = l.length ∧
    completedTasks l = l.countP (fun t => t.completed) ∧
    progressPercentage l =
      (if l.length = 0 then 0
       else percent64 (l.countP (fun t => t.completed)) l.length) ∧
    statsTriple ([] : List Task) = (0, 0, 0) ∧
    (l.length = 4 → completedTasks l = 1 → statsTriple l = (4, 1, 25)) := by
  refine ⟨rfl, ?_, ?_, by decide, ?_⟩
  · simp [completedTasks, List.countP_eq_length_filter]
  · simp [progressPercentage, totalTasks, completedTasks,
      List.countP_eq_length_filter]
  · intro h4 h1
    have hp : progressPercentage l = 25 := by
      rw [progressPercentage, totalTasks, h4, h1]
      decide
    simp [statsTriple, totalTasks, h4, h1, hp]

/-- Witness for stats_spec: an explicit 4-task list with exactly one
completed task has statistics (4, 1, 25). -/
theorem stats_spec_witness :
    ([⟨1, "a", true, Priority.Low⟩, ⟨2, "b", false, Priority.Low⟩,
      ⟨3, "c", false, Priority.Medium⟩, ⟨4, "d", false, Priority.High⟩] :
        List Task).length = 4 ∧
    completedTasks [⟨1, "a", true, Priority.Low⟩, ⟨2, "b", false, Priority.Low⟩,
      ⟨3, "c", false, Priority.Medium⟩, ⟨4, "d", false, Priority.High⟩] = 1 ∧
    statsTriple [⟨1, "a", true, Priority.Low⟩, ⟨2, "b", false, Priority.Low⟩,
      ⟨3, "c", false, Priority.Medium⟩, ⟨4, "d", false, Priority.High⟩] =
      (4, 1, 25) :=
  ⟨by decide, by decide,
   (stats_spec _).2.2.2.2 (by decide) (by decide)⟩

/-- Claim C5: toggling the same id twice restores the list exactly
(involution); no other task or field is affected. -/
theorem toggle_involution (l : List Task) (id : Nat)
    (_h : id ∈ l.map Task.id) :
    (toggleTodo (toggleTodo l id).1 id).1 = l := by
  show toggleList id (toggleList id l) = l
  unfold toggleList
  rw [List.map_map]
  refine List.map_id'' (fun t => ?_) l
  obtain ⟨i, tx, c, p⟩ := t
  by_cases h : i = id
  · simp [h]
  · simp [h]

/-- Witness for toggle_involution: double toggle of id 2 on a concrete
two-task list returns the original list. -/
theorem toggle_involution_witness :
    (2 : Nat) ∈ ([⟨1, "a", false, Priority.Low⟩,
        ⟨2, "b", true, Priority.High⟩] : List Task).map Task.id ∧
    (toggleTodo (toggleTodo [⟨1, "a", false, Priority.Low⟩,
        ⟨2, "b", true, Priority.High⟩] 2).1 2).1 =
      [⟨1, "a", false, Priority.Low⟩, ⟨2, "b", true, Priority.High⟩] :=
  ⟨by decide, toggle_involution _ 2 (by decide)⟩

/-- Claim C8 (counterexample): reorder does not preserve the id set for
arbitrary newOrder arguments: replacing a one-task list by the empty
list changes the set of ids. -/
theorem reorder_cex :
    (reorderTodos [⟨1, "a", false, Priority.Medium⟩] []).map Task.id ≠
      ([⟨1, "a", false, Priority.Medium⟩] : List Task).map Task.id := by
  decide

/-- Claim C8 (amended): when newOrder is a permutation of the current
list — the precondition the UI layer is trusted to guarantee — reorder
preserves the multiset of tasks: the ids are a permutation of the old
ids and every task in the result occurs, with identical fields, in the
old list. -/
theorem reorder_perm_frame (todos newOrder : List Task)
    (h : newOrder.Perm todos) :
    (reorderTodos todos newOrder).Perm todos ∧
    ((reorderTodos todos newOrder).map Task.id).Perm (todos.map Task.id) ∧
    ∀ t ∈ reorderTodos todos newOrder, t ∈ todos :=
  ⟨h, h.map Task.id, fun _ ht => h.subset ht⟩

/-- Witness for reorder_perm_frame: swapping a concrete two-task list is
a permutation and preserves ids and membership. -/
theorem reorder_perm_frame_witness :
    ([⟨2, "b", true, Priority.High⟩, ⟨1, "a", false, Priority.Low⟩] :
        List Task).Perm
      [⟨1, "a", false, Priority.Low⟩, ⟨2, "b", true, Priority.High⟩] ∧
    ((reorderTodos [⟨1, "a", false, Priority.Low⟩, ⟨2, "b", true, Priority.High⟩]
        [⟨2, "b", true, Priority.High⟩, ⟨1, "a", false, Priority.Low⟩]).map
          Task.id).Perm
      (([⟨1, "a", false, Priority.Low⟩, ⟨2, "b", true, Priority.High⟩] :
          List Task).map Task.id) :=
  ⟨by decide,
   (reorder_perm_frame [⟨1, "a", false, Priority.Low⟩,
      ⟨2, "b", true, Priority.High⟩]
      [⟨2, "b", true, Priority.High⟩, ⟨1, "a", false, Priority.Low⟩]
      (by decide)).2.1⟩

/-- Claim C10: deleteTodo always emits exactly one delete sound, even
when the id is absent; deleting an absent id leaves the list unchanged;
toggleTodo emits no sound for an absent id. -/
theorem delete_always_sounds (l : List Task) (id : Nat) :
    (deleteTodo l id).2 = [SoundEvt.deleteSound] ∧
    (id ∉ l.map Task.id →
      (deleteTodo l id).1 = l ∧ (toggleTodo l id).2 = []) := by
  refine ⟨rfl, fun h => ⟨?_, ?_⟩⟩
  · show l.filter _ = l
    refine List.filter_eq_self.mpr fun t ht => ?_
    have : t.id ≠ id := fun he => h (he ▸ List.mem_map_of_mem Task.id ht)
    simpa using this
  · show (match l.find? (fun t => t.id == id) with
      | some t => [SoundEvt.toggleSound (!t.completed)]
      | none => []) = []
    have : l.find? (fun t => t.id == id) = none := by
      refine List.find?_eq_none.mpr fun t ht => ?_
      have : t.id ≠ id := fun he => h (he ▸ List.mem_map_of_mem Task.id ht)
      simpa using this
    rw [this]

/-- Witness for delete_always_sounds: deleting the absent id 2 from a
one-task list emits the delete sound, keeps the list, and a toggle of
the same absent id emits no sound. -/
theorem delete_always_sounds_witness :
    (deleteTodo [⟨1, "a", false, Priority.Medium⟩] 2).2 =
      [SoundEvt.deleteSound] ∧
    ((2 : Nat) ∉ ([⟨1, "a", false, Priority.Medium⟩] : List Task).map Task.id) ∧
    (deleteTodo [⟨1, "a", false, Priority.Medium⟩] 2).1 =
      [⟨1, "a", false, Priority.Medium⟩] ∧
    (toggleTodo [⟨1, "a", false, Priority.Medium⟩] 2).2 = [] :=
  ⟨(delete_always_sounds [⟨1, "a", false, Priority.Medium⟩] 2).1,
   by decide,
   ((delete_always_sounds [⟨1, "a", false, Priority.Medium⟩] 2).2
      (by decide)).1,
   ((delete_always_sounds [⟨1, "a", false, Priority.Medium⟩] 2).2
      (by decide)).2⟩

/-- Claim C7 (code evaluated at the failing input): with the engine
disabled (setEnabled false on a fresh state) and a working backend,
playVictory still constructs the AudioContext and five oscillator/gain
voices and schedules them — the inline voice code never checks
this.enabled — and even playClick, whose oscillator is suppressed,
still constructs the AudioContext via init(). -/
theorem victory_ignores_mute :
    (playVictory true (setEnabled false ⟨false, true⟩)).toOption.map
        (fun r => (r.2.count AudioCall.oscCreate, r.2.count AudioCall.ctxCreate)) =
      some (5, 1) ∧
    (playClick true (setEnabled false ⟨false, true⟩)).toOption.map
        (fun r => r.2) = some [AudioCall.ctxCreate] := by
  decide

/-- Claim C9 (code evaluated at the failing input): when the audio
backend cannot be created (the AudioContext constructor throws), every
trigger method propagates the failure out of the call instead of
swallowing it — SoundEngine.js contains no try/catch. -/
theorem play_propagates_ctx_failure :
    playAdd false ⟨false, true⟩ = Except.error () ∧
    playClick false ⟨false, true⟩ = Except.error () ∧
    playToggle true false ⟨false, true⟩ = Except.error () ∧
    playDelete false ⟨false, true⟩ = Except.error () ∧
    playVictory false ⟨false, true⟩ = Except.error () ∧
    playCredits false ⟨false, true⟩ = Except.error () :=
  ⟨rfl, rfl, rfl, rfl, rfl, rfl⟩

/-- Helper: one valid step preserves distinctness of the ids. -/
theorem applyOp_ids_nodup (todos : List Task) (op : Op)
    (hnd : (todos.map Task.id).Nodup)
    (hstep : (match op with
       | Op.add _ _ now => !((todos.map Task.id).contains now)
       | Op.toggle _ => true
       | Op.del _ => true
       | Op.reorder newOrder => newOrder.isPerm todos) = true) :
    ((applyOp todos op).map Task.id).Nodup := by
  cases op with
  | add text p now =>
      simp only [applyOp, addTodo]
      split
      · exact hnd
      · simp only [List.map_cons, List.nodup_cons]
        refine ⟨?_, hnd⟩
        simpa using hstep
  | toggle id =>
      show ((toggleTodo todos id).1.map Task.id).Nodup
      show ((toggleList id todos).map Task.id).Nodup
      rw [toggleList_map_id]
      exact hnd
  | del id =>
      show (((todos.filter fun t => t.id != id).map Task.id)).Nodup
      exact hnd.sublist ((List.filter_sublist todos).map Task.id)
  | reorder newOrder =>
      have hperm : newOrder.Perm todos := List.isPerm_iff.mp hstep
      exact ((hperm.map Task.id).nodup_iff).mpr hnd

/-- Helper: a valid run from a list with distinct ids keeps ids distinct. -/
theorem runOps_ids_nodup_general (ops : List Op) :
    ∀ todos : List Task, (todos.map Task.id).Nodup →
      validOps todos ops = true → ((runOps todos ops).map Task.id).Nodup := by
  induction ops with
  | nil => intro todos hnd _; exact hnd
  | cons op ops ih =>
      intro todos hnd hv
      simp only [validOps, Bool.and_eq_true] at hv
      exact ih (applyOp todos op) (applyOp_ids_nodup todos op hnd hv.1) hv.2

/-- Claim C2 (counterexample): two adds in the same clock tick both get
that tick as id, so ids are not unique; likewise, a reorder whose
argument is not a permutation (here duplicating a task) also breaks
uniqueness — the claim as stated fails on the code. -/
theorem same_tick_ids_collide_cex :
    ¬ ((runOps [] [Op.add "a" Priority.Medium 5,
        Op.add "b" Priority.Medium 5]).map Task.id).Nodup ∧
    ¬ ((runOps [] [Op.add "a" Priority.Medium 1,
        Op.reorder [⟨1, "a", false, Priority.Medium⟩,
          ⟨1, "a", false, Priority.Medium⟩]]).map Task.id).Nodup := by
  constructor <;> decide

/-- Claim C2 (amended): starting from the empty list, for every sequence
of add/toggle/delete/reorder operations in which each add's Date.now()
value is not already an id in the list (guaranteed by a strictly
increasing clock, i.e. adds in distinct ticks) and each reorder argument
is a permutation of the current list, the ids in the store are pairwise
distinct; two adds within one clock tick fall outside this and collide. -/
theorem ids_unique_of_validOps (ops : List Op)
    (hv : validOps [] ops = true) :
    ((runOps [] ops).map Task.id).Nodup :=
  runOps_ids_nodup_general ops [] (by simp) hv

/-- Witness for ids_unique_of_validOps: a concrete valid sequence (adds
at ticks 3 then 5, a toggle, a delete, and a permutation reorder) ends
with distinct ids. -/
theorem ids_unique_of_validOps_witness :
    validOps [] [Op.add "a" Priority.Medium 3, Op.add "b" Priority.High 5,
      Op.toggle 3,
      Op.reorder [⟨3, "a", true, Priority.Medium⟩, ⟨5, "b", false, Priority.High⟩],
      Op.del 5] = true ∧
    ((runOps [] [Op.add "a" Priority.Medium 3, Op.add "b" Priority.High 5,
      Op.toggle 3,
      Op.reorder [⟨3, "a", true, Priority.Medium⟩, ⟨5, "b", false, Priority.High⟩],
      Op.del 5]).map Task.id).Nodup :=
  ⟨by decide,
   ids_unique_of_validOps
     [Op.add "a" Priority.Medium 3, Op.add "b" Priority.High 5,
      Op.toggle 3,
      Op.reorder [⟨3, "a", true, Priority.Medium⟩, ⟨5, "b", false, Priority.High⟩],
      Op.del 5] (by decide)⟩

/-- Helper: dropping a literal from itself plus a remainder succeeds. -/
theorem dropLit_append (lit : List Char) :
    ∀ rest, dropLit lit (lit ++ rest) = some rest := by
  induction lit with
  | nil => intro rest; rfl
  | cons l ls ih => intro rest; simp [dropLit, ih]

/-- Helper: every character of a rendered decimal is a digit. -/
theorem toDecimal_all_digits (n : Nat) : ∀ c ∈ toDecimal n, c.isDigit := by
  induction n using Nat.strong_induction_on with
  | _ n ih =>
    rw [toDecimal]
    have hd : ∀ d, d < 10 → (digitChar d).isDigit = true := by decide
    split
    · next h =>
        intro c hc
        rw [List.mem_singleton] at hc
        exact hc ▸ hd n h
    · next h =>
        intro c hc
        rcases List.mem_append.mp hc with h1 | h1
        · exact ih (n / 10) (Nat.div_lt_self (by omega) (by omega)) c h1
        · rw [List.mem_singleton] at h1
          exact h1 ▸ hd (n % 10) (Nat.mod_lt _ (by omega))

/-- Helper: a rendered decimal is never empty. -/
theorem toDecimal_ne_nil (n : Nat) : toDecimal n ≠ [] := by
  rw [toDecimal]
  split <;> simp

/-- Helper: digit accumulation splits over append. -/
theorem digitsVal_append (xs : List Char) :
    ∀ acc ys, digitsVal (xs ++ ys) acc = digitsVal ys (digitsVal xs acc) := by
  induction xs with
  | nil => intro acc ys; rfl
  | cons x xs ih => intro acc ys; simp [digitsVal, ih]

/-- Helper: the digit accumulator recovers the rendered number. -/
theorem digitsVal_toDecimal (n : Nat) :
    ∀ acc, digitsVal (toDecimal n) acc =
      acc * 10 ^ (toDecimal n).length + n := by
  induction n using Nat.strong_induction_on with
  | _ n ih =>
    have hd : ∀ d, d < 10 → (digitChar d).toNat - 48 = d := by decide
    intro acc
    rw [toDecimal]
    split
    · next h =>
        rw [digitsVal, digitsVal, hd n h]
        simp [pow_one]
    · next h =>
        rw [digitsVal_append]
        rw [ih (n / 10) (Nat.div_lt_self (by omega) (by omega))]
        have hm : (digitChar (n % 10)).toNat - 48 = n % 10 :=
          hd (n % 10) (Nat.mod_lt _ (by omega))
        rw [digitsVal, digitsVal, hm]
        rw [List.length_append, List.length_cons, List.length_nil]
        have hdm : 10 * (n / 10) + n % 10 = n := Nat.div_add_mod n 10
        rw [Nat.zero_add, pow_succ]
        calc (acc * 10 ^ (toDecimal (n / 10)).length + n / 10) * 10 + n % 10
            = acc * (10 ^ (toDecimal (n / 10)).length * 10) +
              (10 * (n / 10) + n % 10) := by ring
          _ = acc * (10 ^ (toDecimal (n / 10)).length * 10) + n := by
              rw [hdm]

/-- Helper: parsing the rendered decimal followed by a non-digit stops
exactly at the non-digit and recovers the number. -/
theorem parseNat_toDecimal (n : Nat) (c : Char) (rest : List Char)
    (hc : c.isDigit = false) :
    parseNat (toDecimal n ++ c :: rest) = some (n, c :: rest) := by
  have hall : ∀ a ∈ toDecimal n, Char.isDigit a = true := toDecimal_all_digits n
  rw [parseNat]
  rw [List.takeWhile_append_of_pos hall, List.dropWhile_append_of_pos hall]
  simp only [List.takeWhile_cons, List.dropWhile_cons, hc]
  simp only [Bool.false_eq_true, if_false, List.append_nil]
  rw [if_neg (by simp [List.isEmpty_iff, toDecimal_ne_nil n])]
  rw [digitsVal_toDecimal n 0]
  simp

/-- Helper: hex digits rendered for values below 16 test and evaluate
correctly. -/
theorem hexDigitChar_ok :
    ∀ d, d < 16 → isHexDigitCh (hexDigitChar d) = true ∧
      hexVal (hexDigitChar d) = d := by decide

/-- Helper: the string-body parser undoes JSON.stringify escaping. -/
theorem parseJString_escape (s : List Char) :
    ∀ rest, parseJString (escapeChars s ++ '"' :: rest) = some (s, rest) := by
  induction s with
  | nil =>
      intro rest
      rw [escapeChars, List.nil_append, parseJString.eq_def]
      simp
  | cons c s ih =>
    intro rest
    rw [escapeChars, List.append_assoc, escapeChar]
    split_ifs with h1 h2 h3 h4 h5 h6 h7 h8
    · subst h1
      simp only [List.cons_append, List.nil_append]
      rw [parseJString.eq_def]
      simp [ih]
    · subst h2
      simp only [List.cons_append, List.nil_append]
      rw [parseJString.eq_def]
      simp [ih]
    · subst h3
      simp only [List.cons_append, List.nil_append]
      rw [parseJString.eq_def]
      simp [ih]
    · subst h4
      simp only [List.cons_append, List.nil_append]
      rw [parseJString.eq_def]
      simp [ih]
    · subst h5
      simp only [List.cons_append, List.nil_append]
      rw [parseJString.eq_def]
      simp [ih]
    · subst h6
      simp only [List.cons_append, List.nil_append]
      rw [parseJString.eq_def]
      simp [ih]
    · subst h7
      simp only [List.cons_append, List.nil_append]
      rw [parseJString.eq_def]
      simp [ih]
    · have hdiv : c.toNat / 16 < 16 := by omega
      have hmod : c.toNat % 16 < 16 := Nat.mod_lt _ (by omega)
      have e1 := hexDigitChar_ok (c.toNat / 16) hdiv
      have e2 := hexDigitChar_ok (c.toNat % 16) hmod
      have hval : ((hexVal '0' * 16 + hexVal '0') * 16 +
          hexVal (hexDigitChar (c.toNat / 16))) * 16 +
          hexVal (hexDigitChar (c.toNat % 16)) = c.toNat := by
        rw [e1.2, e2.2]
        rw [show hexVal '0' = 0 from rfl]
        omega
      have h0x : isHexDigitCh '0' = true := by decide
      simp only [List.cons_append, List.nil_append]
      rw [parseJString.eq_def]
      simp [ih, e1.1, e2.1, h0x, hval, Char.ofNat_toNat]
    · simp only [List.cons_append, List.nil_append]
      rw [parseJString.eq_def]
      simp [ih, h1, h2]

/-- Helper: the boolean parser undoes the boolean rendering. -/
theorem parseBool_boolChars (b : Bool) (rest : List Char) :
    parseBool (boolChars b ++ rest) = some (b, rest) := by
  cases b
  · show parseBool ("false".data ++ rest) = some (false, rest)
    rw [parseBool]
    have : dropLit "true".data ("false".data ++ rest) = none := by
      simp [dropLit]
    rw [this, dropLit_append "false".data rest]
  · show parseBool ("true".data ++ rest) = some (true, rest)
    rw [parseBool, dropLit_append "true".data rest]

/-- Helper: the priority parser undoes the priority rendering. -/
theorem parsePriorityChars_render (p : Priority) (rest : List Char) :
    parsePriorityChars (priorityChars p ++ rest) = some (p, rest) := by
  cases p
  · show parsePriorityChars ("Low".data ++ rest) = some (Priority.Low, rest)
    rw [parsePriorityChars, dropLit_append "Low".data rest]
  · show parsePriorityChars ("Medium".data ++ rest) = some (Priority.Medium, rest)
    rw [parsePriorityChars]
    have h1 : dropLit "Low".data ("Medium".data ++ rest) = none := by
      simp [dropLit]
    rw [h1, dropLit_append "Medium".data rest]
  · show parsePriorityChars ("High".data ++ rest) = some (Priority.High, rest)
    rw [parsePriorityChars]
    have h1 : dropLit "Low".data ("High".data ++ rest) = none := by
      simp [dropLit]
    have h2 : dropLit "Medium".data ("High".data ++ rest) = none := by
      simp [dropLit]
    rw [h1, h2, dropLit_append "High".data rest]

/-- Helper: the task parser undoes the task rendering. -/
theorem parseTask_render (t : Task) (rest : List Char) :
    parseTask (renderTask t ++ rest) = some (t, rest) := by
  obtain ⟨n, tx, b, p⟩ := t
  have hnat : ∀ X : List Char,
      parseNat (toDecimal n ++ (textLit ++ X)) = some (n, textLit ++ X) := by
    intro X
    rw [show textLit ++ X = ',' :: ("\"text\":\"".data ++ X) from rfl]
    exact parseNat_toDecimal n ',' _ (by decide)
  rw [renderTask]
  simp only [List.append_assoc, List.cons_append]
  simp only [parseTask, dropLit_append, hnat, parseJString_escape,
    parseBool_boolChars, parsePriorityChars_render]

/-- Helper: the item-list parser undoes the item rendering, given fuel
exceeding the number of items. -/
theorem parseItems_renderItems (ts : List Task) :
    ∀ fuel rest, ts.length < fuel →
      parseItems fuel (renderItems ts ++ rest) = some (ts, rest) := by
  induction ts with
  | nil =>
      intro fuel rest hf
      obtain ⟨f, rfl⟩ : ∃ f, fuel = f + 1 :=
        ⟨fuel - 1, by omega⟩
      rfl
  | cons t ts ih =>
      intro fuel rest hf
      obtain ⟨f, rfl⟩ : ∃ f, fuel = f + 1 :=
        ⟨fuel - 1, by omega⟩
      have hih : parseItems f (renderItems ts ++ rest) = some (ts, rest) :=
        ih f rest (by simpa using hf)
      rw [renderItems]
      simp only [List.cons_append, List.append_assoc]
      rw [parseItems]
      simp only [parseTask_render, hih]

/-- Helper: the rendering of the array tail is longer than the number of
items it holds. -/
theorem renderItems_length_gt (ts : List Task) :
    ts.length < (renderItems ts).length := by
  induction ts with
  | nil => simp [renderItems]
  | cons t ts ih =>
      rw [renderItems]
      simp only [List.length_cons, List.length_append]
      omega

/-- Claim C3: serializing any task list to the persisted string and
deserializing it through the load path reproduces the identical ordered
list with identical id, text, completed and priority fields. -/
theorem serialize_roundtrip (todos : List Task) :
    deserialize (serialize todos) = some todos := by
  show deserializeChars (serializeChars todos) = some todos
  cases todos with
  | nil => rfl
  | cons t ts =>
      rw [serializeChars]
      have hdrop : dropLit ['['] ('[' :: (renderTask t ++ renderItems ts)) =
          some (renderTask t ++ renderItems ts) := by
        simp [dropLit]
      have htl : renderTask t ++ renderItems ts =
          '\x7b' :: (("\"id\":".data ++ toDecimal t.id ++ textLit ++
            escapeChars t.text.data ++ '"' :: compLit ++
            boolChars t.completed ++ priLit ++ priorityChars t.priority ++
            closeLit) ++ renderItems ts) := rfl
      have hne : ¬ (renderTask t ++ renderItems ts = [']']) := by
        rw [htl]; simp
      have hitems := parseItems_renderItems ts
        ((renderItems ts).length + 1) []
        (by have := renderItems_length_gt ts; omega)
      rw [List.append_nil] at hitems
      simp only [deserializeChars, hdrop, if_neg hne, parseTask_render,
        hitems]
      rfl

/-- Claim C6 (counterexample): a present but corrupt persisted string
does not degrade to the empty list — JSON.parse fails and the failure
propagates out of the useState initializer. -/
theorem load_corrupt_cex :
    loadTodos (some "not json") ≠ some [] := by
  decide

/-- Claim C6 (amended): if the persisted string is absent (or empty,
which JavaScript truthiness also sends to the default), load returns the
empty list; but a present string that is not valid JSON makes the load
path fail (JSON.parse throws and nothing catches it) instead of
degrading to the empty list. -/
theorem load_absent_empty_corrupt_fails :
    loadTodos none = some [] ∧
    loadTodos (some "") = some [] ∧
    loadTodos (some "not json") = none := by
  refine ⟨rfl, rfl, by decide⟩

end TodoApp
